import Mathlib

/-!
Verification of the photo-sorter repository (concurrent variant, main.go).

The Go program is shallowly embedded: pure helpers become Lean functions,
filesystem-touching code becomes explicit state passing over a `World`
(a map from paths to filesystem entries plus stamped timestamps), and
the EXIF decoder and directory listing are oracles in an `Env` record.
Paths are modelled as component lists (Go `path.Join` of clean,
separator-free components is exactly list append).
-/

namespace PhotoSorter

/-- Calendar timestamp, modelling the fields of a Go `time.Time` that the
program reads (year, month, day, time of day). -/
structure GoTime where
  year : Nat
  month : Nat
  day : Nat
  hour : Nat
  minute : Nat
  second : Nat
deriving DecidableEq, Repr

/-- Filesystem paths as lists of components; Go `path.Join` of clean,
slash-free components appends one component. -/
abbrev GoPath := List String

/-- Go `path.Join(p, s)` for a clean base path and a slash-free component. -/
def pathJoin (p : GoPath) (s : String) : GoPath := p ++ [s]

/-- Parent directory of a path (the path with its last component removed),
used to model that `os.Mkdir` requires an existing parent directory. -/
def parentDir (p : GoPath) : GoPath := p.dropLast

/-- Go `strings.ToLower` restricted to ASCII letters (the only characters in
the extension sets the program compares against). -/
def goToLowerChar (c : Char) : Char :=
  if 'A' ≤ c ∧ c ≤ 'Z' then Char.ofNat (c.toNat + 32) else c

/-- Lower-case an entire string, character by character. -/
def goToLower (s : String) : String := ⟨s.data.map goToLowerChar⟩

/-- Go `strings.HasSuffix(s, suf)`. -/
def goHasSuffix (s suf : String) : Bool := suf.data.isSuffixOf s.data

/-- `pictureFileExtensions` from main.go. -/
def pictureFileExtensions : List String :=
  [".jpg", ".png", ".heic", ".jpeg", ".dng", ".arw"]

/-- `videoFileExtensions` from main.go. -/
def videoFileExtensions : List String := [".mp4", ".mov", ".webp"]

/-- `gifFileExtensions` from main.go. -/
def gifFileExtensions : List String := [".gif"]

/-- `PicturesDirName` constant from main.go. -/
def PicturesDirName : String := "pictures"

/-- `VideosDirName` constant from main.go. -/
def VideosDirName : String := "videos"

/-- `GifsDirName` constant from main.go. -/
def GifsDirName : String := "gifs"

/-- `isPicture` from main.go: lower-case the file name and test each picture
extension as a suffix. -/
def isPicture (fileName : String) : Bool :=
  pictureFileExtensions.any fun ext => goHasSuffix (goToLower fileName) ext

/-- `isVideo` from main.go. -/
def isVideo (fileName : String) : Bool :=
  videoFileExtensions.any fun ext => goHasSuffix (goToLower fileName) ext

/-- `isGif` from main.go. -/
def isGif (fileName : String) : Bool :=
  gifFileExtensions.any fun ext => goHasSuffix (goToLower fileName) ext

/-- The four file categories of the spec's data model. -/
inductive Category where
  | picture
  | video
  | gif
  | uncategorized
deriving DecidableEq, Repr

/-- The category selected by `constructOutPath`'s sequence of checks in
main.go: start uncategorized, then let `isPicture`, `isVideo`, `isGif`
each overwrite the choice in that order. -/
def codeCategory (fileName : String) : Category :=
  let c := Category.uncategorized
  let c := if isPicture fileName then Category.picture else c
  let c := if isVideo fileName then Category.video else c
  let c := if isGif fileName then Category.gif else c
  c

/-- Spec-side classifier, transcribed from the spec's words (section 4.1):
a pure case-insensitive suffix match against the three static extension
sets, tried as pictures, then videos, then gifs; no match is Uncategorized. -/
def specClassify (fileName : String) : Category :=
  if pictureFileExtensions.any (fun ext => goHasSuffix (goToLower fileName) ext) then
    Category.picture
  else if videoFileExtensions.any (fun ext => goHasSuffix (goToLower fileName) ext) then
    Category.video
  else if gifFileExtensions.any (fun ext => goHasSuffix (goToLower fileName) ext) then
    Category.gif
  else
    Category.uncategorized

/-- Decimal digits of a natural number, fuelled in the style of
`Nat.toDigits`; models Go `fmt.Sprintf` verb `%d` for non-negative values. -/
def goItoaCore : Nat → Nat → List Char
  | 0, _ => []
  | fuel + 1, n =>
    if n < 10 then [Char.ofNat (48 + n)]
    else goItoaCore fuel (n / 10) ++ [Char.ofNat (48 + n % 10)]

/-- Go `fmt.Sprintf("%d", n)` for a natural number. -/
def goItoa (n : Nat) : String := ⟨goItoaCore (n + 1) n⟩

/-- Go `fmt.Sprintf("%02d", n)`: zero-pad to two digits. -/
def pad2 (n : Nat) : String := if n < 10 then "0" ++ goItoa n else goItoa n

/-- The month-directory name `fmt.Sprintf("%d-%02d", year, month)` built by
`copyFile` in main.go. -/
def yearMonthDirName (year month : Nat) : String :=
  goItoa year ++ "-" ++ pad2 month

/-- `fileDateTimeFormats` from main.go (including the duplicated entry). -/
def fileDateTimeFormats : List String :=
  ["2006-01-02_15-04-05", "2006-01-02", "20060102", "20060102_150405",
   "20060102_150405", "PXL_20060102_150405"]

/-- Layout tokens of a Go reference-time layout. Only the numeric tokens
that occur in `fileDateTimeFormats` (2006, 01, 02, 15, 04, 05) and literal
characters are modelled; this matches Go's `nextStdChunk` on exactly those
layouts. -/
inductive LayoutTok where
  | year4
  | month2
  | day2
  | hourTok
  | minute2
  | second2
  | lit (c : Char)
deriving DecidableEq, Repr

/-- Scan a layout string into tokens, following Go's `nextStdChunk` for the
tokens used by `fileDateTimeFormats`. -/
def layoutTokens : List Char → List LayoutTok
  | '2' :: '0' :: '0' :: '6' :: rest => .year4 :: layoutTokens rest
  | '0' :: '1' :: rest => .month2 :: layoutTokens rest
  | '0' :: '2' :: rest => .day2 :: layoutTokens rest
  | '1' :: '5' :: rest => .hourTok :: layoutTokens rest
  | '0' :: '4' :: rest => .minute2 :: layoutTokens rest
  | '0' :: '5' :: rest => .second2 :: layoutTokens rest
  | c :: rest => .lit c :: layoutTokens rest
  | [] => []

/-- Numeric value of an ASCII digit, `none` otherwise. -/
def digitVal : Char → Option Nat
  | c => if c.isDigit then some (c.toNat - 48) else none

/-- Go `getnum` with `fixed = true`: consume exactly two digits. -/
def getnum2 : List Char → Option (Nat × List Char)
  | c1 :: c2 :: rest =>
    match digitVal c1, digitVal c2 with
    | some d1, some d2 => some (d1 * 10 + d2, rest)
    | _, _ => none
  | _ => none

/-- Go `getnum` with `fixed = false`: consume one digit, or two when the
second character is also a digit. -/
def getnum1or2 : List Char → Option (Nat × List Char)
  | c1 :: c2 :: rest =>
    match digitVal c1 with
    | none => none
    | some d1 =>
      match digitVal c2 with
      | some d2 => some (d1 * 10 + d2, rest)
      | none => some (d1, c2 :: rest)
  | [c1] =>
    match digitVal c1 with
    | some d1 => some (d1, [])
    | none => none
  | [] => none

/-- Go `stdLongYear`: consume exactly four digits. -/
def getnum4 : List Char → Option (Nat × List Char)
  | a :: b :: c :: d :: rest =>
    match digitVal a, digitVal b, digitVal c, digitVal d with
    | some x, some y, some z, some w => some (((x * 10 + y) * 10 + z) * 10 + w, rest)
    | _, _, _, _ => none
  | _ => none

/-- Accumulated fields while parsing; Go defaults the year to 0 and month
and day to 1 when absent from the layout (all our layouts set all three). -/
structure ParseAcc where
  year : Nat := 0
  month : Nat := 1
  day : Nat := 1
  hour : Nat := 0
  minute : Nat := 0
  second : Nat := 0
deriving DecidableEq, Repr

/-- Consume the value string token by token, as Go's `Parse` loop does;
any leftover input after the layout is exhausted is an error
("extra text"), as is a literal or digit mismatch. -/
def runTokens : List LayoutTok → List Char → ParseAcc → Option ParseAcc
  | [], value, acc => if value.isEmpty then some acc else none
  | .year4 :: rest, value, acc =>
    match getnum4 value with
    | some (n, v) => runTokens rest v { acc with year := n }
    | none => none
  | .month2 :: rest, value, acc =>
    match getnum2 value with
    | some (n, v) => runTokens rest v { acc with month := n }
    | none => none
  | .day2 :: rest, value, acc =>
    match getnum2 value with
    | some (n, v) => runTokens rest v { acc with day := n }
    | none => none
  | .hourTok :: rest, value, acc =>
    match getnum1or2 value with
    | some (n, v) => runTokens rest v { acc with hour := n }
    | none => none
  | .minute2 :: rest, value, acc =>
    match getnum2 value with
    | some (n, v) => runTokens rest v { acc with minute := n }
    | none => none
  | .second2 :: rest, value, acc =>
    match getnum2 value with
    | some (n, v) => runTokens rest v { acc with second := n }
    | none => none
  | .lit c :: rest, value, acc =>
    match value with
    | c' :: v => if c' = c then runTokens rest v acc else none
    | [] => none

/-- Go leap-year rule (`isLeap` in the time package). -/
def isLeapYear (y : Nat) : Bool :=
  y % 4 == 0 && (y % 100 != 0 || y % 400 == 0)

/-- Days in a month, as Go `daysIn`. -/
def daysIn (month year : Nat) : Nat :=
  if month = 2 then (if isLeapYear year then 29 else 28)
  else if month = 4 ∨ month = 6 ∨ month = 9 ∨ month = 11 then 30
  else 31

/-- Normalisation performed by `time.Date` on the parsed fields. Go checks
month, day, hour and second ranges but not the minute, so at most one
carry out of the minute (≤ 99) can ripple upward; this function performs
exactly that carry chain for fields in the ranges `time.Parse` lets
through. -/
def goDateNorm (y m d hh mm ss : Nat) : GoTime :=
  let hh2 := hh + mm / 60
  let mm2 := mm % 60
  let d2 := d + hh2 / 24
  let hh3 := hh2 % 24
  if d2 > daysIn m y then
    if m + 1 > 12 then ⟨y + 1, 1, 1, hh3, mm2, ss⟩
    else ⟨y, m + 1, 1, hh3, mm2, ss⟩
  else ⟨y, m, d2, hh3, mm2, ss⟩

/-- Range checks performed by Go's `Parse` (hour below 24, second below 60,
month 1..12, day within the month), then `time.Date` normalisation. -/
def finishParse (acc : ParseAcc) : Option GoTime :=
  if acc.hour ≥ 24 then none
  else if acc.second ≥ 60 then none
  else if acc.month < 1 ∨ acc.month > 12 then none
  else if acc.day < 1 ∨ acc.day > daysIn acc.month acc.year then none
  else some (goDateNorm acc.year acc.month acc.day acc.hour acc.minute acc.second)

/-- Go `time.Parse(layout, value)` for the layouts of `fileDateTimeFormats`,
returning `none` on any parse error. -/
def goTimeParse (layout value : String) : Option GoTime :=
  (runTokens (layoutTokens layout.data) value.data {}).bind finishParse

/-- `getDateTakenFromFileName` from main.go: try each layout in
`fileDateTimeFormats` in order; the first successful parse wins. -/
def getDateTakenFromFileName (fileName : String) : Option GoTime :=
  fileDateTimeFormats.findSome? fun format => goTimeParse format fileName

example : goTimeParse "20060102_150405" "20230615_143000" =
    some ⟨2023, 6, 15, 14, 30, 0⟩ := by decide
example : goTimeParse "20060102_150405" "20230615_143000.jpg" = none := by decide
example : getDateTakenFromFileName "20230615_143000.jpg" = none := by decide
example : getDateTakenFromFileName "2021-12-25" = some ⟨2021, 12, 25, 0, 0, 0⟩ := by
  decide
example : getDateTakenFromFileName "PXL_20220203_100000" =
    some ⟨2022, 2, 3, 10, 0, 0⟩ := by decide
example : getDateTakenFromFileName "IMG_001.jpg" = none := by decide
example : getDateTakenFromFileName "20230230" = none := by decide

/-- A filesystem entry: a directory or a regular file with byte content. -/
inductive FsEntry where
  | dir
  | file (content : List Nat)
deriving DecidableEq, Repr

/-- Filesystem state: what exists at each path, and the timestamp last
stamped onto each path (by a write or an explicit time-setting call). -/
structure World where
  entries : GoPath → Option FsEntry
  times : GoPath → Option GoTime

/-- Error kinds of `os.Mkdir` distinguished by `createDirIfNotExists`
(`os.IsExist` versus anything else, such as a missing parent). -/
inductive MkdirErr where
  | exist
  | other
deriving DecidableEq, Repr

/-- Model of `os.Mkdir`: fails with an exists-error when the path is
occupied, fails otherwise when the parent is not an existing directory,
and records a new directory on success. -/
def goMkdir (w : World) (p : GoPath) : Except MkdirErr World :=
  match w.entries p with
  | some _ => .error .exist
  | none =>
    if w.entries (parentDir p) = some .dir then
      .ok { w with entries := fun q => if q = p then some .dir else w.entries q }
    else
      .error .other

/-- `createDirIfNotExists` from main.go: `os.Mkdir`, treating an
already-existing directory as success and an existing non-directory as an
error; any other mkdir failure is returned as is. -/
def createDirIfNotExists (w : World) (p : GoPath) : Except String Unit × World :=
  match goMkdir w p with
  | .ok w2 => (.ok (), w2)
  | .error .exist =>
    match w.entries p with
    | some .dir => (.ok (), w)
    | some (.file _) => (.error "path exists but is not a directory", w)
    | none => (.error "os.Stat failed", w)
  | .error .other => (.error "mkdir failed", w)

/-- Model of `os.ReadFile`. -/
def goReadFile (w : World) (p : GoPath) : Except String (List Nat) :=
  match w.entries p with
  | some (.file content) => .ok content
  | _ => .error "read file failed"

/-- Model of `os.WriteFile` at the moment `now`: overwrites an existing
regular file or creates a new one under an existing parent directory, and
records the write time as the file's stamped timestamp. -/
def goWriteFile (now : GoTime) (w : World) (p : GoPath) (content : List Nat) :
    Except String Unit × World :=
  match w.entries p with
  | some .dir => (.error "write file: path is a directory", w)
  | some (.file _) =>
    (.ok (), { entries := fun q => if q = p then some (.file content) else w.entries q,
               times := fun q => if q = p then some now else w.times q })
  | none =>
    if w.entries (parentDir p) = some .dir then
      (.ok (), { entries := fun q => if q = p then some (.file content) else w.entries q,
                 times := fun q => if q = p then some now else w.times q })
    else
      (.error "write file failed", w)

/-- Model of `os.Chtimes`: requires the path to exist and records the new
timestamp. -/
def goChtimes (w : World) (p : GoPath) (t : GoTime) : Except String Unit × World :=
  match w.entries p with
  | some _ => (.ok (), { w with times := fun q => if q = p then some t else w.times q })
  | none => (.error "chtimes: no such file or directory", w)

/-- Snapshot of `fs.FileInfo` as the program reads it: name, modification
time, and the Windows-reported creation time behind
`fileInfo.Sys().(*syscall.Win32FileAttributeData)`. -/
structure FileInfo where
  name : String
  modTime : GoTime
  winCreationTime : GoTime
deriving DecidableEq, Repr

/-- A directory entry from `os.ReadDir`; `info` is `none` when
`item.Info()` fails. -/
structure DirEntry where
  name : String
  isDir : Bool
  info : Option FileInfo
deriving DecidableEq, Repr

/-- Ambient environment: the EXIF decoder as an oracle from the opened path
to an optional date-taken (`getExifDateTaken` returns an error exactly when
the oracle is `none`), the runtime platform `runtime.GOOS`, the wall clock
used as the default timestamp of written files, and `os.ReadDir`. -/
structure Env where
  exif : GoPath → Option GoTime
  goos : String
  now : GoTime
  readDir : GoPath → Except String (List DirEntry)

/-- `getFileCreatedDateTime` from main.go: EXIF date of
`path.Join(fileDir, name)` first, then a date parsed from the file name,
then the modification time — except on Windows, where the platform
creation time is used instead. -/
def getFileCreatedDateTime (env : Env) (fileInfo : FileInfo) (fileDir : GoPath) : GoTime :=
  match env.exif (pathJoin fileDir fileInfo.name) with
  | some dateTaken => dateTaken
  | none =>
    match getDateTakenFromFileName fileInfo.name with
    | some dateTaken => dateTaken
    | none =>
      if env.goos = "windows" then fileInfo.winCreationTime else fileInfo.modTime

/-- `constructOutPath` from main.go: join the file name onto the parent;
when sorting into categories, pick the category directory (initialised to
`path.Join(parentPath, fileName)`, then overwritten by each matching
category check), create it, and join the file name onto it. -/
def constructOutPath (w : World) (parentPath : GoPath) (fileName : String)
    (sortIntoCategories : Bool) : Except String GoPath × World :=
  let outPath := pathJoin parentPath fileName
  if sortIntoCategories then
    let categoryDir := outPath
    let categoryDir := if isPicture fileName then pathJoin parentPath PicturesDirName
      else categoryDir
    let categoryDir := if isVideo fileName then pathJoin parentPath VideosDirName
      else categoryDir
    let categoryDir := if isGif fileName then pathJoin parentPath GifsDirName
      else categoryDir
    match createDirIfNotExists w categoryDir with
    | (.error e, w2) => (.error ("create category directory: " ++ e), w2)
    | (.ok _, w2) => (.ok (pathJoin categoryDir fileName), w2)
  else
    (.ok outPath, w)

/-- `copyFile` from main.go: resolve the file's creation date, create the
`YYYY-MM` month directory under the out directory, construct the out path,
read the source bytes and write them to the out path. -/
def copyFile (env : Env) (fileInfo : FileInfo) (sourceDir outDir : GoPath)
    (sortIntoCategories : Bool) (w : World) : Except String GoPath × World :=
  let fileName := fileInfo.name
  let fileCreationDate := getFileCreatedDateTime env fileInfo sourceDir
  let monthDir := pathJoin outDir
    (yearMonthDirName fileCreationDate.year fileCreationDate.month)
  match createDirIfNotExists w monthDir with
  | (.error e, w1) => (.error ("create month directory: " ++ e), w1)
  | (.ok _, w1) =>
    match constructOutPath w1 monthDir fileName sortIntoCategories with
    | (.error e, w2) => (.error ("construct out path: " ++ e), w2)
    | (.ok outPath, w2) =>
      match goReadFile w2 (pathJoin sourceDir fileName) with
      | .error e => (.error ("read file: " ++ e), w2)
      | .ok content =>
        match goWriteFile env.now w2 outPath content with
        | (.error e, w3) => (.error ("write file: " ++ e), w3)
        | (.ok _, w3) => (.ok outPath, w3)

/-- `setWindowsFileCreationDateTime` from main.go: open the destination and
set its creation time through the Windows API; modelled as stamping the
timestamp when the path exists. -/
def setWindowsFileCreationDateTime (w : World) (p : GoPath) (ctime : GoTime) :
    Except String Unit × World :=
  match w.entries p with
  | some _ => (.ok (), { w with times := fun q => if q = p then some ctime else w.times q })
  | none => (.error "open file failed", w)

/-- `preserveOriginalFileCreationDate` from main.go: recompute the created
time by calling `getFileCreatedDateTime` with the destination path as the
directory argument, then stamp it (Windows creation time on Windows,
`os.Chtimes` otherwise). -/
def preserveOriginalFileCreationDate (env : Env) (fileInfo : FileInfo)
    (filePath : GoPath) (w : World) : Except String Unit × World :=
  let createdTime := getFileCreatedDateTime env fileInfo filePath
  if env.goos = "windows" then
    setWindowsFileCreationDateTime w filePath createdTime
  else
    goChtimes w filePath createdTime

/-- Go `filepath.Ext`: the suffix of the last component beginning at the
final dot, or the empty string when there is no dot. Implemented by
scanning the reversed character list, accumulating the characters seen so
far in original order. -/
def extAux : List Char → List Char → String
  | [], _ => ""
  | c :: rest, acc =>
    if c = '/' then ""
    else if c = '.' then ⟨'.' :: acc⟩
    else extAux rest (c :: acc)

/-- Go `filepath.Ext(p)`. -/
def filepathExt (p : String) : String := extAux p.data.reverse []

/-- Go `strings.Split` on a single-character separator (never returns an
empty list; splitting the empty string yields one empty piece). -/
def goSplitAux (sep : Char) : List Char → List Char → List String
  | [], acc => [⟨acc.reverse⟩]
  | c :: rest, acc =>
    if c = sep then ⟨acc.reverse⟩ :: goSplitAux sep rest []
    else goSplitAux sep rest (c :: acc)

/-- Go `strings.Split(s, sep)` for a one-character separator. -/
def goSplit (s : String) (sep : Char) : List String := goSplitAux sep s.data []

/-- ASCII whitespace, the relevant fragment of Go's `unicode.IsSpace` for
the extension flag. -/
def isSpaceChar (c : Char) : Bool :=
  c = ' ' || c = '\t' || c = '\n' || c = '\r'

/-- Go `strings.TrimSpace` (ASCII fragment). -/
def goTrimSpace (s : String) : String :=
  ⟨((s.data.dropWhile isSpaceChar).reverse.dropWhile isSpaceChar).reverse⟩

/-- Whether a string begins with a dot; Go `strings.HasPrefix(s, ".")`. -/
def startsWithDot (s : String) : Bool := s.data.head? == some '.'

/-- `resolveFileExtensions` from main.go, as a function of the `--ext` flag
value: an empty flag means `["*"]`, otherwise split on commas; then each
entry is trimmed, lower-cased and, unless it is `*`, given a leading dot
when missing. -/
def resolveFileExtensions (fileExtensionsArg : String) : List String :=
  let ext := if fileExtensionsArg = "" then ["*"] else goSplit fileExtensionsArg ','
  ext.map fun e =>
    let e := goToLower (goTrimSpace e)
    if e = "*" then e
    else if startsWithDot e then e
    else "." ++ e

/-- `shouldBeSorted` from main.go: accept everything when the allow-list is
exactly `["*"]`; otherwise accept when some entry is `*` or equals the
lower-cased extension of the file name. -/
def shouldBeSorted (fileName : String) (allowedExtensions : List String) : Bool :=
  if allowedExtensions.length == 1 && allowedExtensions[0]? == some "*" then true
  else
    let fileExt := goToLower (filepathExt fileName)
    allowedExtensions.any fun ext => ext == "*" || ext == fileExt

/-- Per-file outcome recorded by a worker in `sortFiles`; error outcomes
correspond to the branches that log and `continue`. -/
inductive Outcome where
  | skippedDir (name : String)
  | infoError (name : String)
  | filteredOut (name : String)
  | copyError (name : String) (e : String)
  | copiedStampFailed (name : String) (outPath : GoPath) (e : String)
  | copied (name : String) (outPath : GoPath)
deriving DecidableEq, Repr

/-- The worker body of `sortFiles` for one channel item: skip directories,
skip files whose info read fails, skip files filtered out by the extension
allow-list, log-and-skip copy failures, and log (but keep the copy) when
stamping the timestamp fails. -/
def processItem (env : Env) (sourceDir outDir : GoPath) (fileExtensions : List String)
    (sortIntoCategories : Bool) (w : World) (item : DirEntry) : World × Outcome :=
  if item.isDir then (w, .skippedDir item.name)
  else
    match item.info with
    | none => (w, .infoError item.name)
    | some fileInfo =>
      if !shouldBeSorted item.name fileExtensions then (w, .filteredOut item.name)
      else
        match copyFile env fileInfo sourceDir outDir sortIntoCategories w with
        | (.error e, w1) => (w1, .copyError item.name e)
        | (.ok outPath, w1) =>
          match preserveOriginalFileCreationDate env fileInfo outPath w1 with
          | (.error e, w2) => (w2, .copiedStampFailed item.name outPath e)
          | (.ok _, w2) => (w2, .copied item.name outPath)

/-- Process the listed entries in order, threading the filesystem state and
collecting one outcome per entry. This sequentialises the worker pool: the
claims proved below concern the return value and the set of processed
files, which do not depend on the interleaving. -/
def processItems (env : Env) (sourceDir outDir : GoPath) (fileExtensions : List String)
    (sortIntoCategories : Bool) : World → List DirEntry → List Outcome × World
  | w, [] => ([], w)
  | w, item :: rest =>
    let (w1, outcome) := processItem env sourceDir outDir fileExtensions
      sortIntoCategories w item
    let (outcomes, w2) := processItems env sourceDir outDir fileExtensions
      sortIntoCategories w1 rest
    (outcome :: outcomes, w2)

/-- `sortFiles` from main.go (concurrent variant): fail only when
`os.ReadDir` on the source directory fails; otherwise process every listed
entry and return success. -/
def sortFiles (env : Env) (sourceDir outDir : GoPath) (fileExtensions : List String)
    (sortIntoCategories : Bool) (w : World) :
    Except String (List Outcome × World) :=
  match env.readDir sourceDir with
  | .error e => .error ("read source dir: " ++ e)
  | .ok items =>
    .ok (processItems env sourceDir outDir fileExtensions sortIntoCategories w items)

/-- Whether an `Except` result is a success. -/
def exceptOk {ε α : Type} : Except ε α → Bool
  | .ok _ => true
  | .error _ => false

/-- The number of per-file outcomes of a `sortFiles` run, when it returned
success. -/
def outcomeCount (r : Except String (List Outcome × World)) : Option Nat :=
  match r with
  | .ok (outcomes, _) => some outcomes.length
  | .error _ => none

example : filepathExt "a.txt" = ".txt" := by decide
example : filepathExt "archive.tar.gz" = ".gz" := by decide
example : filepathExt "noext" = "" := by decide
example : resolveFileExtensions ".jpg,PNG" = [".jpg", ".png"] := by decide
example : resolveFileExtensions "" = ["*"] := by decide
example : shouldBeSorted "a.txt" (resolveFileExtensions ".jpg") = false := by decide
example : shouldBeSorted "a.JPG" (resolveFileExtensions "jpg") = true := by decide
example : isPicture "IMG_001.JPG" = true := by decide
example : isPicture "note.txt" = false := by decide

lemma any_suffix_exists (name : String) (exts : List String) :
    (exts.any fun ext => goHasSuffix (goToLower name) ext) = true ↔
      ∃ ext ∈ exts, ext.data <:+ (goToLower name).data := by
  simp [goHasSuffix, List.any_eq_true]

lemma no_cross_suffix_pic_vid :
    ∀ e1 ∈ pictureFileExtensions, ∀ e2 ∈ videoFileExtensions,
      ¬ e1.data <:+ e2.data ∧ ¬ e2.data <:+ e1.data := by decide

lemma no_cross_suffix_pic_gif :
    ∀ e1 ∈ pictureFileExtensions, ∀ e2 ∈ gifFileExtensions,
      ¬ e1.data <:+ e2.data ∧ ¬ e2.data <:+ e1.data := by decide

lemma no_cross_suffix_vid_gif :
    ∀ e1 ∈ videoFileExtensions, ∀ e2 ∈ gifFileExtensions,
      ¬ e1.data <:+ e2.data ∧ ¬ e2.data <:+ e1.data := by decide

lemma exclusive_of_no_cross_suffix {name : String} {exts1 exts2 : List String}
    (hno : ∀ e1 ∈ exts1, ∀ e2 ∈ exts2,
      ¬ e1.data <:+ e2.data ∧ ¬ e2.data <:+ e1.data)
    (h1 : (exts1.any fun ext => goHasSuffix (goToLower name) ext) = true)
    (h2 : (exts2.any fun ext => goHasSuffix (goToLower name) ext) = true) : False := by
  obtain ⟨e1, he1, hs1⟩ := (any_suffix_exists name exts1).mp h1
  obtain ⟨e2, he2, hs2⟩ := (any_suffix_exists name exts2).mp h2
  rcases List.suffix_or_suffix_of_suffix hs1 hs2 with h | h
  · exact (hno e1 he1 e2 he2).1 h
  · exact (hno e1 he1 e2 he2).2 h

lemma exclusive_pic_vid {name : String} (hp : isPicture name = true)
    (hv : isVideo name = true) : False :=
  exclusive_of_no_cross_suffix no_cross_suffix_pic_vid hp hv

lemma exclusive_pic_gif {name : String} (hp : isPicture name = true)
    (hg : isGif name = true) : False :=
  exclusive_of_no_cross_suffix no_cross_suffix_pic_gif hp hg

lemma exclusive_vid_gif {name : String} (hv : isVideo name = true)
    (hg : isGif name = true) : False :=
  exclusive_of_no_cross_suffix no_cross_suffix_vid_gif hv hg

/-- C8: the extension classifier of the code (the category selected by
`constructOutPath`'s `isPicture` / `isVideo` / `isGif` check sequence)
agrees on every file name with the spec's classifier: a pure,
case-insensitive suffix match against the three static extension sets
(pictures: jpg, png, heic, jpeg, dng, arw; videos: mp4, mov, webp;
gifs: gif), with no match classified Uncategorized. -/
theorem classifier_matches_spec (fileName : String) :
    codeCategory fileName = specClassify fileName := by
  unfold codeCategory specClassify
  unfold isPicture isVideo isGif
  cases hp : pictureFileExtensions.any fun ext => goHasSuffix (goToLower fileName) ext with
  | true =>
    cases hv : videoFileExtensions.any fun ext => goHasSuffix (goToLower fileName) ext with
    | true => exact (exclusive_pic_vid hp hv).elim
    | false =>
      cases hg : gifFileExtensions.any fun ext => goHasSuffix (goToLower fileName) ext with
      | true => exact (exclusive_pic_gif hp hg).elim
      | false => simp
  | false =>
    cases hv : videoFileExtensions.any fun ext => goHasSuffix (goToLower fileName) ext with
    | true =>
      cases hg : gifFileExtensions.any fun ext => goHasSuffix (goToLower fileName) ext with
      | true => exact (exclusive_vid_gif hv hg).elim
      | false => simp
    | false =>
      cases hg : gifFileExtensions.any fun ext => goHasSuffix (goToLower fileName) ext with
      | true => simp
      | false => simp

/-- C10: at most one of the three category predicates holds for any file
name — no extension of one set is a suffix of an extension of another set —
so the category chosen by `constructOutPath`'s check sequence is uniquely
determined and a matched category is never overwritten by a later check. -/
theorem category_predicates_exclusive (fileName : String) :
    (isPicture fileName = true → isVideo fileName = false ∧ isGif fileName = false) ∧
    (isVideo fileName = true → isGif fileName = false) := by
  constructor
  · intro hp
    constructor
    · cases hv : isVideo fileName with
      | true => exact (exclusive_pic_vid hp hv).elim
      | false => rfl
    · cases hg : isGif fileName with
      | true => exact (exclusive_pic_gif hp hg).elim
      | false => rfl
  · intro hv
    cases hg : isGif fileName with
    | true => exact (exclusive_vid_gif hv hg).elim
    | false => rfl

/-- Witness for `category_predicates_exclusive` at the concrete picture
file name `photo.jpg`. -/
theorem category_predicates_exclusive_witness :
    isVideo "photo.jpg" = false ∧ isGif "photo.jpg" = false :=
  (category_predicates_exclusive "photo.jpg").1 (by decide)

lemma createDir_spec (w : World) (p : GoPath) :
    createDirIfNotExists w p =
      match w.entries p with
      | some FsEntry.dir => (.ok (), w)
      | some (FsEntry.file _) => (.error "path exists but is not a directory", w)
      | none =>
        if w.entries (parentDir p) = some FsEntry.dir then
          (.ok (), { w with
            entries := fun q => if q = p then some FsEntry.dir else w.entries q })
        else (.error "mkdir failed", w) := by
  unfold createDirIfNotExists goMkdir
  cases hE : w.entries p with
  | none =>
    by_cases hP : w.entries (parentDir p) = some FsEntry.dir
    · simp [hP]
    · simp [hP]
  | some e => cases e <;> simp [hE]

/-- C6: `createDirIfNotExists` is idempotent: a second call after a
successful first call succeeds and leaves the state unchanged; a path that
already exists as a directory is a success; and it errors exactly when the
path exists as a non-directory or the underlying create fails for another
reason (here: the parent is not an existing directory). -/
theorem createDirIfNotExists_idempotent (w : World) (p : GoPath) :
    (∀ w2, createDirIfNotExists w p = (.ok (), w2) →
      createDirIfNotExists w2 p = (.ok (), w2)) ∧
    (w.entries p = some FsEntry.dir → createDirIfNotExists w p = (.ok (), w)) ∧
    ((∃ e w2, createDirIfNotExists w p = (.error e, w2)) ↔
      ((∃ content, w.entries p = some (FsEntry.file content)) ∨
        (w.entries p = none ∧ w.entries (parentDir p) ≠ some FsEntry.dir))) := by
  refine ⟨?_, ?_, ?_⟩
  · intro w2 h
    rw [createDir_spec] at h
    cases hE : w.entries p with
    | none =>
      rw [hE] at h
      by_cases hP : w.entries (parentDir p) = some FsEntry.dir
      · rw [if_pos hP] at h
        have hw : { w with
            entries := fun q => if q = p then some FsEntry.dir else w.entries q } = w2 :=
          congrArg Prod.snd h
        subst hw
        rw [createDir_spec]
        simp
      · rw [if_neg hP] at h
        simp at h
    | some e =>
      cases e with
      | dir =>
        rw [hE] at h
        have hw : w = w2 := congrArg Prod.snd h
        subst hw
        rw [createDir_spec, hE]
      | file content =>
        rw [hE] at h
        simp at h
  · intro hE
    rw [createDir_spec, hE]
  · constructor
    · rintro ⟨e, w2, h⟩
      rw [createDir_spec] at h
      cases hE : w.entries p with
      | none =>
        rw [hE] at h
        by_cases hP : w.entries (parentDir p) = some FsEntry.dir
        · rw [if_pos hP] at h
          exact absurd h (by simp)
        · exact Or.inr ⟨rfl, hP⟩
      | some entry =>
        cases entry with
        | dir =>
          rw [hE] at h
          exact absurd h (by simp)
        | file content => exact Or.inl ⟨content, rfl⟩
    · intro hcase
      rcases hcase with ⟨content, hE⟩ | ⟨hE, hP⟩
      · rw [createDir_spec, hE]
        exact ⟨_, _, rfl⟩
      · rw [createDir_spec, hE, if_neg hP]
        exact ⟨_, _, rfl⟩

/-- World fixture: an existing root and an existing directory `a`. -/
def c6World : World :=
  { entries := fun p => if p = ([] : GoPath) ∨ p = ["a"] then some FsEntry.dir else none,
    times := fun _ => none }

/-- Witness for `createDirIfNotExists_idempotent`: creating the existing
directory `a` succeeds, and doing it again succeeds with the same state. -/
theorem createDirIfNotExists_idempotent_witness :
    createDirIfNotExists c6World ["a"] = (.ok (), c6World) :=
  (createDirIfNotExists_idempotent c6World ["a"]).1 c6World
    ((createDirIfNotExists_idempotent c6World ["a"]).2.1 (by decide))

lemma goItoaCore_succ (f n : Nat) :
    goItoaCore (f + 1) n = if n < 10 then [Char.ofNat (48 + n)]
      else goItoaCore f (n / 10) ++ [Char.ofNat (48 + n % 10)] := rfl

lemma goItoaCore_length_four (f n : Nat) (h1 : 1000 ≤ n) (h2 : n ≤ 9999)
    (hf : 3 ≤ f) : (goItoaCore (f + 1) n).length = 4 := by
  obtain ⟨f1, rfl⟩ : ∃ g, f = g + 1 := ⟨f - 1, by omega⟩
  obtain ⟨f2, rfl⟩ : ∃ g, f1 = g + 1 := ⟨f1 - 1, by omega⟩
  obtain ⟨f3, rfl⟩ : ∃ g, f2 = g + 1 := ⟨f2 - 1, by omega⟩
  rw [goItoaCore_succ, if_neg (by omega)]
  rw [goItoaCore_succ, if_neg (by omega)]
  rw [goItoaCore_succ, if_neg (by omega)]
  rw [goItoaCore_succ, if_pos (by omega)]
  simp

lemma goItoa_length_four (n : Nat) (h1 : 1000 ≤ n) (h2 : n ≤ 9999) :
    (goItoa n).length = 4 := by
  show (goItoaCore (n + 1) n).length = 4
  exact goItoaCore_length_four n n h1 h2 (by omega)

lemma pad2_length_two (m : Nat) (h1 : 1 ≤ m) (h2 : m ≤ 12) :
    (pad2 m).length = 2 := by
  interval_cases m <;> decide

/-- Name of the category subdirectory inserted by `constructOutPath` for a
recognised category. -/
def categoryDirName : Category → String
  | Category.picture => PicturesDirName
  | Category.video => VideosDirName
  | Category.gif => GifsDirName
  | Category.uncategorized => ""

/-- The directory whose creation `constructOutPath` attempts when category
sorting is enabled, expressed through `codeCategory`. -/
def categoryDirOf (parentPath : GoPath) (fileName : String) : GoPath :=
  match codeCategory fileName with
  | Category.picture => pathJoin parentPath PicturesDirName
  | Category.video => pathJoin parentPath VideosDirName
  | Category.gif => pathJoin parentPath GifsDirName
  | Category.uncategorized => pathJoin parentPath fileName

lemma categoryChain_eq (parentPath : GoPath) (fileName : String) :
    (if isGif fileName then pathJoin parentPath GifsDirName
      else if isVideo fileName then pathJoin parentPath VideosDirName
      else if isPicture fileName then pathJoin parentPath PicturesDirName
      else pathJoin parentPath fileName) = categoryDirOf parentPath fileName := by
  unfold categoryDirOf codeCategory
  cases hg : isGif fileName <;> cases hv : isVideo fileName <;>
    cases hp : isPicture fileName <;> simp

lemma constructOutPath_ok_path (w : World) (parentPath : GoPath) (fileName : String)
    (sortIntoCategories : Bool) (p : GoPath)
    (h : (constructOutPath w parentPath fileName sortIntoCategories).1 = .ok p) :
    p = if sortIntoCategories then pathJoin (categoryDirOf parentPath fileName) fileName
      else pathJoin parentPath fileName := by
  unfold constructOutPath at h
  cases sortIntoCategories with
  | false =>
    simp at h
    simp [h.symm]
  | true =>
    simp only [if_true] at h ⊢
    rw [← categoryChain_eq parentPath fileName]
    split at h
    · simp at h
    · simp at h
      rw [← h]

lemma categoryDirOf_recognised (parentPath : GoPath) (fileName : String)
    (h : codeCategory fileName ≠ Category.uncategorized) :
    categoryDirOf parentPath fileName =
      pathJoin parentPath (categoryDirName (codeCategory fileName)) := by
  cases hc : codeCategory fileName with
  | picture => simp [categoryDirOf, categoryDirName, hc]
  | video => simp [categoryDirOf, categoryDirName, hc]
  | gif => simp [categoryDirOf, categoryDirName, hc]
  | uncategorized => exact absurd hc h

/-- C4 (amended): on success, `copyFile` plus `constructOutPath` place the
file at `outDir/<year>-<month>/filename` when categorisation is off, and at
`outDir/<year>-<month>/<category>/filename` when it is on and the file has
a recognised category; the month-directory name is the unpadded decimal
year joined by a hyphen to the two-digit zero-padded month, which renders
as a four-digit year exactly when the resolved year lies in 1000..9999. -/
theorem copyFile_destination_shape (env : Env) (fileInfo : FileInfo)
    (sourceDir outDir : GoPath) (sortIntoCategories : Bool) (w : World) (outPath : GoPath)
    (h : (copyFile env fileInfo sourceDir outDir sortIntoCategories w).1 = .ok outPath) :
    (sortIntoCategories = false → outPath = outDir ++
      [yearMonthDirName (getFileCreatedDateTime env fileInfo sourceDir).year
        (getFileCreatedDateTime env fileInfo sourceDir).month, fileInfo.name]) ∧
    (sortIntoCategories = true → codeCategory fileInfo.name ≠ Category.uncategorized →
      outPath = outDir ++
        [yearMonthDirName (getFileCreatedDateTime env fileInfo sourceDir).year
          (getFileCreatedDateTime env fileInfo sourceDir).month,
          categoryDirName (codeCategory fileInfo.name), fileInfo.name]) ∧
    (1000 ≤ (getFileCreatedDateTime env fileInfo sourceDir).year →
      (getFileCreatedDateTime env fileInfo sourceDir).year ≤ 9999 →
      (goItoa (getFileCreatedDateTime env fileInfo sourceDir).year).length = 4) ∧
    (1 ≤ (getFileCreatedDateTime env fileInfo sourceDir).month →
      (getFileCreatedDateTime env fileInfo sourceDir).month ≤ 12 →
      (pad2 (getFileCreatedDateTime env fileInfo sourceDir).month).length = 2) := by
  have hshape : outPath = if sortIntoCategories then
      pathJoin (categoryDirOf (pathJoin outDir
        (yearMonthDirName (getFileCreatedDateTime env fileInfo sourceDir).year
          (getFileCreatedDateTime env fileInfo sourceDir).month)) fileInfo.name)
        fileInfo.name
    else pathJoin (pathJoin outDir
      (yearMonthDirName (getFileCreatedDateTime env fileInfo sourceDir).year
        (getFileCreatedDateTime env fileInfo sourceDir).month)) fileInfo.name := by
    simp only [copyFile] at h
    split at h
    · simp at h
    · split at h
      · simp at h
      · rename_i outPath2 w2 heqcop
        split at h
        · simp at h
        · split at h
          · simp at h
          · simp at h
            rw [← h]
            exact constructOutPath_ok_path _ _ _ _ _ (by rw [heqcop])
  refine ⟨?_, ?_, ?_, ?_⟩
  · intro hc
    subst hc
    simp only [if_neg Bool.false_ne_true] at hshape
    simp [hshape, pathJoin]
  · intro hc hcat
    subst hc
    simp only [if_pos rfl] at hshape
    rw [categoryDirOf_recognised _ _ hcat] at hshape
    simp [hshape, pathJoin]
  · exact goItoa_length_four _
  · exact pad2_length_two _

/-- Environment with no EXIF data anywhere, on a non-Windows platform. -/
def noExifEnv : Env :=
  { exif := fun _ => none, goos := "linux", now := ⟨2026, 10, 11, 0, 0, 0⟩,
    readDir := fun _ => .error "unused" }

/-- A file whose filesystem modification time has a three-digit year. -/
def oldFileInfo : FileInfo :=
  ⟨"note.txt", ⟨999, 6, 1, 0, 0, 0⟩, ⟨999, 6, 1, 0, 0, 0⟩⟩

/-- Source and out directories with `note.txt` present in the source. -/
def c4World : World :=
  { entries := fun p =>
      if p = ([] : GoPath) ∨ p = ["src"] ∨ p = ["out"] then some FsEntry.dir
      else if p = ["src", "note.txt"] then some (FsEntry.file [1]) else none,
    times := fun _ => none }

/-- Counterexample to C4 as stated: a resolved modification time in year
999 yields the month directory `999-06`, whose year segment is not four
digits. -/
theorem copyFile_year_not_four_digits :
    (copyFile noExifEnv oldFileInfo ["src"] ["out"] false c4World).1 =
      .ok ["out", "999-06", "note.txt"] ∧
    yearMonthDirName 999 6 = "999-06" ∧
    (goItoa 999).length ≠ 4 :=
  ⟨rfl, by decide, by decide⟩

/-- A picture file with a June 2023 modification time. -/
def picFileInfo : FileInfo :=
  ⟨"IMG_001.jpg", ⟨2023, 6, 15, 10, 0, 0⟩, ⟨2023, 6, 15, 10, 0, 0⟩⟩

/-- Source and out directories with `IMG_001.jpg` present in the source. -/
def c4wWorld : World :=
  { entries := fun p =>
      if p = ([] : GoPath) ∨ p = ["src"] ∨ p = ["out"] then some FsEntry.dir
      else if p = ["src", "IMG_001.jpg"] then some (FsEntry.file [1]) else none,
    times := fun _ => none }

/-- Witness for `copyFile_destination_shape`: a June 2023 picture with
categorisation on lands at `out/2023-06/pictures/IMG_001.jpg`. -/
theorem copyFile_destination_shape_witness :
    (["out", "2023-06", "pictures", "IMG_001.jpg"] : GoPath) = ["out"] ++
      [yearMonthDirName (getFileCreatedDateTime noExifEnv picFileInfo ["src"]).year
        (getFileCreatedDateTime noExifEnv picFileInfo ["src"]).month,
        categoryDirName (codeCategory "IMG_001.jpg"), "IMG_001.jpg"] ∧
    (goItoa (getFileCreatedDateTime noExifEnv picFileInfo ["src"]).year).length = 4 := by
  have h := copyFile_destination_shape noExifEnv picFileInfo ["src"] ["out"] true c4wWorld
    ["out", "2023-06", "pictures", "IMG_001.jpg"] rfl
  exact ⟨h.2.1 rfl (by decide), h.2.2.1 (by decide) (by decide)⟩
/-- World fixture: out root with an existing 2021-12 month directory. -/
def c1World : World :=
  { entries := fun p =>
      if p = ([] : GoPath) ∨ p = ["out"] ∨ p = ["out", "2021-12"] then some FsEntry.dir
      else none,
    times := fun _ => none }

/-- C1 evaluated at the failing input: with categorisation enabled, an
Uncategorized file is not placed directly in the month directory —
`constructOutPath` initialises the category directory to
`monthDir/fileName`, creates that directory, and returns
`monthDir/note.txt/note.txt` with an extra path component. -/
theorem constructOutPath_uncategorized_nests_filename_dir :
    (constructOutPath c1World ["out", "2021-12"] "note.txt" true).1 =
      .ok ["out", "2021-12", "note.txt", "note.txt"] ∧
    (constructOutPath c1World ["out", "2021-12"] "note.txt" true).2.entries
      ["out", "2021-12", "note.txt"] = some FsEntry.dir ∧
    (["out", "2021-12", "note.txt", "note.txt"] : GoPath) ≠
      ["out", "2021-12", "note.txt"] :=
  ⟨rfl, by decide, by decide⟩

/-- C2 evaluated at the failing input: the spec's example
`20230615_143000.jpg` matches no entry of `fileDateTimeFormats` (Go's
`time.Parse` must consume the whole name, and the `.jpg` extension is
extra text), while the same name without the extension parses as
2023-06-15 14:30:00; the resolver therefore falls through to the
modification time for the `.jpg` name. -/
theorem filename_date_requires_exact_match :
    getDateTakenFromFileName "20230615_143000.jpg" = none ∧
    getDateTakenFromFileName "20230615_143000" = some ⟨2023, 6, 15, 14, 30, 0⟩ ∧
    getFileCreatedDateTime noExifEnv
      ⟨"20230615_143000.jpg", ⟨2024, 1, 1, 0, 0, 0⟩, ⟨2024, 1, 1, 0, 0, 0⟩⟩ ["src"] =
      ⟨2024, 1, 1, 0, 0, 0⟩ :=
  ⟨by decide, by decide, by decide⟩

/-- EXIF date-taken recorded inside the source copy of `IMG_001.jpg`. -/
def exifDateFixture : GoTime := ⟨2022, 1, 5, 10, 0, 0⟩

/-- File info for `IMG_001.jpg`, whose modification time differs from its
EXIF date. -/
def c3FileInfo : FileInfo :=
  ⟨"IMG_001.jpg", ⟨2024, 3, 1, 0, 0, 0⟩, ⟨2024, 3, 1, 0, 0, 0⟩⟩

/-- Environment in which only `src/IMG_001.jpg` carries EXIF data. -/
def c3Env : Env :=
  { exif := fun p => if p = ["src", "IMG_001.jpg"] then some exifDateFixture else none,
    goos := "linux", now := ⟨2026, 10, 11, 0, 0, 0⟩,
    readDir := fun _ => .error "unused" }

/-- Source and out directories with `IMG_001.jpg` present in the source. -/
def c3World : World :=
  { entries := fun p =>
      if p = ([] : GoPath) ∨ p = ["src"] ∨ p = ["out"] then some FsEntry.dir
      else if p = ["src", "IMG_001.jpg"] then some (FsEntry.file [7]) else none,
    times := fun _ => none }

/-- C3 evaluated at the failing input: `copyFile` resolves the EXIF date
2022-01-05 and files the copy under `out/2022-01/pictures`, but
`preserveOriginalFileCreationDate` recomputes the date with the
destination path as the directory argument, finds no EXIF data there, and
stamps the modification time 2024-03-01 instead — the two calls of
`getFileCreatedDateTime` disagree for the same file. -/
theorem resolved_date_recomputed_differs :
    (copyFile c3Env c3FileInfo ["src"] ["out"] true c3World).1 =
      .ok ["out", "2022-01", "pictures", "IMG_001.jpg"] ∧
    getFileCreatedDateTime c3Env c3FileInfo ["src"] = exifDateFixture ∧
    getFileCreatedDateTime c3Env c3FileInfo
      ["out", "2022-01", "pictures", "IMG_001.jpg"] = c3FileInfo.modTime ∧
    (preserveOriginalFileCreationDate c3Env c3FileInfo
        ["out", "2022-01", "pictures", "IMG_001.jpg"]
        (copyFile c3Env c3FileInfo ["src"] ["out"] true c3World).2).2.times
      ["out", "2022-01", "pictures", "IMG_001.jpg"] = some c3FileInfo.modTime ∧
    exifDateFixture ≠ c3FileInfo.modTime :=
  ⟨rfl, by decide, by decide, by decide, by decide⟩

/-- C5: the Date Resolver is total (it returns a `GoTime` for every input)
and follows the priority chain: an EXIF date wins regardless of the file
name or filesystem times; otherwise a file-name date wins; otherwise the
modification time is returned, or the platform creation time on Windows. -/
theorem getFileCreatedDateTime_chain (env : Env) (fileInfo : FileInfo)
    (fileDir : GoPath) :
    (∀ d, env.exif (pathJoin fileDir fileInfo.name) = some d →
      getFileCreatedDateTime env fileInfo fileDir = d) ∧
    (env.exif (pathJoin fileDir fileInfo.name) = none →
      ∀ d, getDateTakenFromFileName fileInfo.name = some d →
        getFileCreatedDateTime env fileInfo fileDir = d) ∧
    (env.exif (pathJoin fileDir fileInfo.name) = none →
      getDateTakenFromFileName fileInfo.name = none →
      getFileCreatedDateTime env fileInfo fileDir =
        if env.goos = "windows" then fileInfo.winCreationTime
        else fileInfo.modTime) := by
  refine ⟨?_, ?_, ?_⟩
  · intro d hd
    unfold getFileCreatedDateTime
    rw [hd]
  · intro hn d hd
    unfold getFileCreatedDateTime
    rw [hn, hd]
  · intro hn hf
    unfold getFileCreatedDateTime
    rw [hn, hf]

/-- Witness for `getFileCreatedDateTime_chain`: with no EXIF data and an
unparseable name, the resolver returns the modification time (non-Windows
branch of the fallback). -/
theorem getFileCreatedDateTime_chain_witness :
    getFileCreatedDateTime noExifEnv oldFileInfo ["src"] =
      (if noExifEnv.goos = "windows" then oldFileInfo.winCreationTime
        else oldFileInfo.modTime) :=
  (getFileCreatedDateTime_chain noExifEnv oldFileInfo ["src"]).2.2 rfl (by decide)

lemma processItems_length (env : Env) (sourceDir outDir : GoPath)
    (fileExtensions : List String) (sortIntoCategories : Bool) :
    ∀ (w : World) (items : List DirEntry),
      (processItems env sourceDir outDir fileExtensions sortIntoCategories
        w items).1.length = items.length := by
  intro w items
  induction items generalizing w with
  | nil => rfl
  | cons item rest ih =>
    rcases h1 : processItem env sourceDir outDir fileExtensions sortIntoCategories w item
      with ⟨w1, outcome⟩
    rcases h2 : processItems env sourceDir outDir fileExtensions sortIntoCategories w1 rest
      with ⟨outcomes, w2⟩
    have hlen := ih w1
    rw [h2] at hlen
    simp only at hlen
    simp only [processItems, h1, h2]
    simp [hlen]

/-- C7: the concurrent `sortFiles` returns an error exactly when the
initial `os.ReadDir` listing fails; when the listing succeeds it returns
success with one recorded per-file outcome for every listed entry, so a
per-file failure is logged into its own outcome and never aborts the
processing of the remaining entries. -/
theorem sortFiles_error_only_from_listing (env : Env) (sourceDir outDir : GoPath)
    (fileExtensions : List String) (sortIntoCategories : Bool) (w : World) :
    (∀ e, env.readDir sourceDir = .error e →
      exceptOk (sortFiles env sourceDir outDir fileExtensions sortIntoCategories w) =
        false) ∧
    (∀ items, env.readDir sourceDir = .ok items →
      exceptOk (sortFiles env sourceDir outDir fileExtensions sortIntoCategories w) =
        true ∧
      outcomeCount (sortFiles env sourceDir outDir fileExtensions sortIntoCategories w) =
        some items.length) := by
  constructor
  · intro e he
    unfold sortFiles
    rw [he]
    rfl
  · intro items hi
    unfold sortFiles
    rw [hi]
    exact ⟨rfl, congrArg some
      (processItems_length env sourceDir outDir fileExtensions sortIntoCategories w items)⟩

/-- Environment whose source listing contains one file whose info read
fails. -/
def c7Env : Env :=
  { exif := fun _ => none, goos := "linux", now := ⟨2026, 10, 11, 0, 0, 0⟩,
    readDir := fun p =>
      if p = ["src"] then .ok [⟨"x.bin", false, none⟩] else .error "no such dir" }

/-- Witness for `sortFiles_error_only_from_listing`: one listed entry whose
per-file info read fails still yields overall success with one outcome. -/
theorem sortFiles_error_only_from_listing_witness :
    exceptOk (sortFiles c7Env ["src"] ["out"] ["*"] true c4World) = true ∧
    outcomeCount (sortFiles c7Env ["src"] ["out"] ["*"] true c4World) = some 1 :=
  (sortFiles_error_only_from_listing c7Env ["src"] ["out"] ["*"] true c4World).2
    [⟨"x.bin", false, none⟩] rfl

lemma getElemZero_mem {l : List String} {x : String} (h : l[0]? = some x) : x ∈ l := by
  cases l with
  | nil => simp at h
  | cons a t =>
    simp at h
    simp [h]

/-- C9 (amended): the extension filter accepts every file name when the
flag is `*` or empty, accepts every file name whenever the resolved
allow-list contains a `*` element, and otherwise accepts exactly the file
names whose lower-cased extension is in the resolved allow-list. -/
theorem shouldBeSorted_allowlist_semantics (arg fileName : String) :
    (arg = "*" ∨ arg = "" →
      shouldBeSorted fileName (resolveFileExtensions arg) = true) ∧
    ("*" ∈ resolveFileExtensions arg →
      shouldBeSorted fileName (resolveFileExtensions arg) = true) ∧
    ("*" ∉ resolveFileExtensions arg →
      (shouldBeSorted fileName (resolveFileExtensions arg) = true ↔
        goToLower (filepathExt fileName) ∈ resolveFileExtensions arg)) := by
  refine ⟨?_, ?_, ?_⟩
  · rintro (rfl | rfl) <;> rfl
  · intro hmem
    simp only [shouldBeSorted]
    split
    · rfl
    · simp only [List.any_eq_true]
      exact ⟨"*", hmem, by simp⟩
  · intro hnmem
    constructor
    · intro h
      simp only [shouldBeSorted] at h
      split at h
      · rename_i hcond
        rw [Bool.and_eq_true] at hcond
        have hzero : (resolveFileExtensions arg)[0]? = some "*" := by
          have := hcond.2
          simpa using this
        exact absurd (getElemZero_mem hzero) hnmem
      · simp only [List.any_eq_true] at h
        obtain ⟨ext, hmem, hpred⟩ := h
        rw [Bool.or_eq_true, beq_iff_eq, beq_iff_eq] at hpred
        rcases hpred with rfl | rfl
        · exact absurd hmem hnmem
        · exact hmem
    · intro hmem
      simp only [shouldBeSorted]
      split
      · rfl
      · simp only [List.any_eq_true]
        exact ⟨goToLower (filepathExt fileName), hmem, by simp⟩

/-- Counterexample to C9 as stated: with the flag `.jpg,*` (neither `*`
nor empty), a `.txt` file is accepted even though its extension is not in
the allow-list, because the list contains a `*` element. -/
theorem shouldBeSorted_star_element_accepts_all :
    resolveFileExtensions ".jpg,*" = [".jpg", "*"] ∧
    shouldBeSorted "a.txt" (resolveFileExtensions ".jpg,*") = true ∧
    goToLower (filepathExt "a.txt") ∉ resolveFileExtensions ".jpg,*" ∧
    (".jpg,*" : String) ≠ "*" ∧ (".jpg,*" : String) ≠ "" :=
  ⟨by decide, by decide, by decide, by decide, by decide⟩

/-- Witness for `shouldBeSorted_allowlist_semantics`: with allow-list
`.jpg`, the file `a.txt` is rejected. -/
theorem shouldBeSorted_allowlist_semantics_witness :
    shouldBeSorted "a.txt" (resolveFileExtensions ".jpg") = false := by
  have h := (shouldBeSorted_allowlist_semantics ".jpg" "a.txt").2.2 (by decide)
  have hn : goToLower (filepathExt "a.txt") ∉ resolveFileExtensions ".jpg" := by decide
  cases hb : shouldBeSorted "a.txt" (resolveFileExtensions ".jpg") with
  | false => rfl
  | true => exact absurd (h.mp hb) hn

example : isVideo "clip.MOV" = true := by decide
example : isGif "anim.gif" = true := by decide
example : codeCategory "a.webp" = Category.video := by decide
example : yearMonthDirName 2023 6 = "2023-06" := by decide
example : yearMonthDirName 999 6 = "999-06" := by decide

end PhotoSorter
